import Mathlib

/-!
Verification of the `codecomplexity` complexity-metrics engine.

This file gives a shallow embedding of the core of the repository:

* `FunctionMetrics` and the Python visitor of `codecomplexity/analyzer.py`
  (`PythonAnalyzer.visit_FunctionDef`, `visit_If`, `visit_For`, `visit_While`,
  `visit_With`, `visit_BoolOp`, `_calculate_loc`), modelled over a fragment of
  the Python AST covering the node kinds the verified claims are about;
* `ProjectMetrics` and `analyze_directory` of `codecomplexity/scanner.py`.

Python's mutable visitor object (`self.functions`, `self.current_function`,
`self.nesting_depth`) is modelled by explicit state passing of a
`VisitorState`.  In Python, `self.current_function` aliases the
`FunctionMetrics` object that `visit_FunctionDef` finally appends; since the
only mutations during a function's subtree go through `self.current_function`
(nested definitions save and restore it), reading the accumulated record back
out of the state on exit is a faithful rendering of that aliasing.
-/

set_option linter.unusedVariables false

namespace CodeComplexity

/-- `FunctionMetrics` from `analyzer.py`: per-function metrics record.
`__init__` sets `lines_of_code = 0`, `cyclomatic_complexity = 1` and
`max_nesting_depth = 0`; the visitor fills the fields in. -/
structure FunctionMetrics where
  name : String
  lineno : Nat
  lines_of_code : Nat
  cyclomatic_complexity : Nat
  max_nesting_depth : Nat
deriving Repr, DecidableEq

/-- Fragment of the Python expression AST relevant to the analyzer: the only
expression kind with its own visitor method is `BoolOp`; every other kind is
transparently descended into by `generic_visit`.  `binCompare` stands for a
`Compare` node with one comparator, `call` for a `Call` node. -/
inductive Expr where
  | boolOp (values : List Expr)
  | binCompare (left right : Expr)
  | call (func : Expr) (args : List Expr)
  | name (id : String)
  | const
deriving Repr

/-- Fragment of the Python statement AST relevant to the analyzer.  Every
constructor carries the node's `lineno` and `end_lineno` position attributes
(CPython guarantees a parent's line range covers its children, so expression
positions, which the line-span walk of `_calculate_loc` also sees, are
subsumed by the statement positions recorded here). -/
inductive Stmt where
  | functionDef (fname : String) (lineno end_lineno : Nat) (body : List Stmt)
  | asyncFunctionDef (fname : String) (lineno end_lineno : Nat) (body : List Stmt)
  | ifStmt (lineno end_lineno : Nat) (test : Expr) (body orelse : List Stmt)
  | forStmt (lineno end_lineno : Nat) (target iter : Expr) (body orelse : List Stmt)
  | whileStmt (lineno end_lineno : Nat) (test : Expr) (body orelse : List Stmt)
  | withStmt (lineno end_lineno : Nat) (items : List Expr) (body : List Stmt)
  | exprStmt (lineno end_lineno : Nat) (value : Expr)
  | returnStmt (lineno end_lineno : Nat) (value : Expr)
  | assign (lineno end_lineno : Nat) (value : Expr)
  | passStmt (lineno end_lineno : Nat)
deriving Repr

/-- The whitespace characters stripped by Python's `str.strip()` (ASCII). -/
def isPySpace (c : Char) : Bool :=
  c = ' ' || c = '\t' || c = '\n' || c = '\r' || c = '\x0b' || c = '\x0c'

/-- `line.strip()` of `_calculate_loc`, as the stripped character list. -/
def strippedChars (line : String) : List Char :=
  ((line.data.dropWhile isPySpace).reverse.dropWhile isPySpace).reverse

/-- The filter of `_calculate_loc`:
`line.strip() and not line.strip().startswith('#')`. -/
def isCodeLine (line : String) : Bool :=
  decide (strippedChars line ≠ []) && decide ((strippedChars line).head? ≠ some '#')

mutual
/-- The `ast.walk` maximum in `_calculate_loc`: the largest
`getattr(stmt, 'end_lineno', stmt.lineno)` over a statement and the statements
of its subtree (all modelled statements carry `end_lineno`). -/
def walkEnd : Stmt → Nat
  | .functionDef _ _ end_lineno body => max end_lineno (walkEndList body)
  | .asyncFunctionDef _ _ end_lineno body => max end_lineno (walkEndList body)
  | .ifStmt _ end_lineno _ body orelse =>
      max end_lineno (max (walkEndList body) (walkEndList orelse))
  | .forStmt _ end_lineno _ _ body orelse =>
      max end_lineno (max (walkEndList body) (walkEndList orelse))
  | .whileStmt _ end_lineno _ body orelse =>
      max end_lineno (max (walkEndList body) (walkEndList orelse))
  | .withStmt _ end_lineno _ body => max end_lineno (walkEndList body)
  | .exprStmt _ end_lineno _ => end_lineno
  | .returnStmt _ end_lineno _ => end_lineno
  | .assign _ end_lineno _ => end_lineno
  | .passStmt _ end_lineno => end_lineno

/-- `walkEnd` over a statement list (0 on the empty list; `_calculate_loc`
only consults this under a non-empty function body). -/
def walkEndList : List Stmt → Nat
  | [] => 0
  | st :: rest => max (walkEnd st) (walkEndList rest)
end

/-- `PythonAnalyzer._calculate_loc`, for a `FunctionDef` node with the given
position attributes and body.  `start_line = node.lineno - 1`; for a non-empty
body the end line is the `ast.walk` maximum over the node and its subtree
(the node's own `end_lineno` included), otherwise `node.lineno`; then the
lines of the Python slice `source_lines[start_line:end_line]` are filtered by
`isCodeLine` and counted. -/
def calculate_loc (sourceLines : List String) (lineno end_lineno : Nat)
    (body : List Stmt) : Nat :=
  let startLine := lineno - 1
  let endLine := if body.isEmpty then lineno else max end_lineno (walkEndList body)
  ((sourceLines.drop startLine).take (endLine - startLine)).countP isCodeLine

/-- The mutable state of a `PythonAnalyzer` instance: `self.functions`,
`self.current_function` and `self.nesting_depth`. -/
structure VisitorState where
  functions : List FunctionMetrics
  current_function : Option FunctionMetrics
  nesting_depth : Nat
deriving Repr, DecidableEq

/-- The guarded increment `if self.current_function:
self.current_function.cyclomatic_complexity += delta` shared by `visit_If`,
`visit_For`, `visit_While`, `visit_ExceptHandler` (delta 1) and
`visit_BoolOp` (delta `len(node.values) - 1`). -/
def addComplexity (s : VisitorState) (delta : Nat) : VisitorState :=
  match s.current_function with
  | some f =>
      let f' := { f with cyclomatic_complexity := f.cyclomatic_complexity + delta }
      { s with current_function := some f' }
  | none => s

mutual
/-- `NodeVisitor.visit` on an expression node: `visit_BoolOp` is the only
expression handler the analyzer defines; every other expression kind falls
through to `generic_visit`, which visits the children in field order. -/
def visitExpr (s : VisitorState) : Expr → VisitorState
  | .boolOp values => visitExprs (addComplexity s (values.length - 1)) values
  | .binCompare left right => visitExpr (visitExpr s left) right
  | .call func args => visitExprs (visitExpr s func) args
  | .name _ => s
  | .const => s

/-- Visiting a list of child expressions in order. -/
def visitExprs (s : VisitorState) : List Expr → VisitorState
  | [] => s
  | e :: rest => visitExprs (visitExpr s e) rest
end

mutual
/-- `NodeVisitor.visit` on a statement node, dispatching to the handlers of
`PythonAnalyzer` (`visit_FunctionDef`, `visit_If`, `visit_For`,
`visit_While`, `visit_With`) or to `generic_visit` for every other kind; in
particular `AsyncFunctionDef` has no handler and is only descended into. -/
def visitStmt (src : List String) (s : VisitorState) : Stmt → VisitorState
  | .functionDef fname lineno end_lineno body =>
      -- visit_FunctionDef: fresh record, loc from _calculate_loc, save and
      -- swap in the current-function context, reset nesting depth, visit the
      -- children, read the depth back as max_nesting_depth, restore the
      -- context, append the record.
      let func : FunctionMetrics :=
        { name := fname, lineno := lineno,
          lines_of_code := calculate_loc src lineno end_lineno body,
          cyclomatic_complexity := 1, max_nesting_depth := 0 }
      let s1 := visitStmts src
        { s with current_function := some func, nesting_depth := 0 } body
      let finished := s1.current_function.getD func
      { functions := s1.functions ++
          [{ finished with max_nesting_depth := s1.nesting_depth }],
        current_function := s.current_function,
        nesting_depth := s.nesting_depth }
  | .asyncFunctionDef _ _ _ body =>
      -- no visit_AsyncFunctionDef handler: generic_visit only
      visitStmts src s body
  | .ifStmt _ _ test body orelse =>
      -- visit_If
      let sc := addComplexity s 1
      let s1 := { sc with nesting_depth := sc.nesting_depth + 1 }
      let s2 := visitStmts src (visitStmts src (visitExpr s1 test) body) orelse
      { s2 with nesting_depth := s2.nesting_depth - 1 }
  | .forStmt _ _ target iter body orelse =>
      -- visit_For
      let sc := addComplexity s 1
      let s1 := { sc with nesting_depth := sc.nesting_depth + 1 }
      let s2 := visitStmts src
        (visitStmts src (visitExpr (visitExpr s1 target) iter) body) orelse
      { s2 with nesting_depth := s2.nesting_depth - 1 }
  | .whileStmt _ _ test body orelse =>
      -- visit_While
      let sc := addComplexity s 1
      let s1 := { sc with nesting_depth := sc.nesting_depth + 1 }
      let s2 := visitStmts src (visitStmts src (visitExpr s1 test) body) orelse
      { s2 with nesting_depth := s2.nesting_depth - 1 }
  | .withStmt _ _ items body =>
      -- visit_With: nesting but no complexity
      let s1 := { s with nesting_depth := s.nesting_depth + 1 }
      let s2 := visitStmts src (visitExprs s1 items) body
      { s2 with nesting_depth := s2.nesting_depth - 1 }
  | .exprStmt _ _ value => visitExpr s value
  | .returnStmt _ _ value => visitExpr s value
  | .assign _ _ value => visitExpr s value
  | .passStmt _ _ => s

/-- `generic_visit` over a list of child statements in order. -/
def visitStmts (src : List String) (s : VisitorState) : List Stmt → VisitorState
  | [] => s
  | st :: rest => visitStmts src (visitStmt src s st) rest
end

/-- The freshly constructed `PythonAnalyzer`: no functions recorded, no
current function, depth 0. -/
def initialState : VisitorState :=
  { functions := [], current_function := none, nesting_depth := 0 }

/-- `analyze_python_file` after the external parse: run the visitor over the
module body (the `Module` node has no handler, so `generic_visit` visits the
top-level statements in order) and return `analyzer.functions`. -/
def analyze_python_module (sourceLines : List String)
    (moduleBody : List Stmt) : List FunctionMetrics :=
  (visitStmts sourceLines initialState moduleBody).functions

/-! ### Characterisation machinery

The visitor's effect on a state factors into three independent parts: the
emitted records are appended to `functions`, the current function's
cyclomatic complexity is bumped by a delta determined by the node alone, and
the nesting depth always returns to its starting value (each handler's
increment is matched by its decrement, which is why `visit_FunctionDef` reads
back `0` into `max_nesting_depth`).  The functions below compute those
deltas; the `visit*_spec` theorems further down prove the factorisation. -/

/-- Add `delta` to the cyclomatic complexity of the current function record,
if any. -/
def bumpCC (delta : Nat) : Option FunctionMetrics → Option FunctionMetrics
  | some f => some { f with cyclomatic_complexity := f.cyclomatic_complexity + delta }
  | none => none

mutual
/-- Complexity delta an expression contributes to the enclosing function:
`k - 1` per `BoolOp` with `k` operands, summed over the whole expression. -/
def exprComplexity : Expr → Nat
  | .boolOp values => (values.length - 1) + exprsComplexity values
  | .binCompare left right => exprComplexity left + exprComplexity right
  | .call func args => exprComplexity func + exprsComplexity args
  | .name _ => 0
  | .const => 0

/-- Sum of `exprComplexity` over a list. -/
def exprsComplexity : List Expr → Nat
  | [] => 0
  | e :: rest => exprComplexity e + exprsComplexity rest
end

mutual
/-- Complexity delta a statement contributes to the function enclosing it:
1 per `if`/`for`/`while` plus the deltas of the contained expressions and
statements.  A sync nested definition contributes 0, since the visitor
redirects those increments to the nested function's own record and then
restores the context; an async definition, having no handler, is transparent
and passes its body's delta through. -/
def stmtComplexity : Stmt → Nat
  | .functionDef _ _ _ _ => 0
  | .asyncFunctionDef _ _ _ body => stmtsComplexity body
  | .ifStmt _ _ test body orelse =>
      1 + exprComplexity test + stmtsComplexity body + stmtsComplexity orelse
  | .forStmt _ _ target iter body orelse =>
      1 + exprComplexity target + exprComplexity iter +
        stmtsComplexity body + stmtsComplexity orelse
  | .whileStmt _ _ test body orelse =>
      1 + exprComplexity test + stmtsComplexity body + stmtsComplexity orelse
  | .withStmt _ _ items body => exprsComplexity items + stmtsComplexity body
  | .exprStmt _ _ value => exprComplexity value
  | .returnStmt _ _ value => exprComplexity value
  | .assign _ _ value => exprComplexity value
  | .passStmt _ _ => 0

/-- Sum of `stmtComplexity` over a list. -/
def stmtsComplexity : List Stmt → Nat
  | [] => 0
  | st :: rest => stmtComplexity st + stmtsComplexity rest
end

mutual
/-- The `FunctionMetrics` records appended to `self.functions` by visiting a
statement: one per sync function definition in the subtree, each appended
right after the records of its own subtree. -/
def emitted (src : List String) : Stmt → List FunctionMetrics
  | .functionDef fname lineno end_lineno body =>
      emittedList src body ++
        [{ name := fname, lineno := lineno,
           lines_of_code := calculate_loc src lineno end_lineno body,
           cyclomatic_complexity := 1 + stmtsComplexity body,
           max_nesting_depth := 0 }]
  | .asyncFunctionDef _ _ _ body => emittedList src body
  | .ifStmt _ _ _ body orelse => emittedList src body ++ emittedList src orelse
  | .forStmt _ _ _ _ body orelse => emittedList src body ++ emittedList src orelse
  | .whileStmt _ _ _ body orelse => emittedList src body ++ emittedList src orelse
  | .withStmt _ _ _ body => emittedList src body
  | .exprStmt _ _ _ => []
  | .returnStmt _ _ _ => []
  | .assign _ _ _ => []
  | .passStmt _ _ => []

/-- `emitted` over a statement list, in visiting order. -/
def emittedList (src : List String) : List Stmt → List FunctionMetrics
  | [] => []
  | st :: rest => emitted src st ++ emittedList src rest
end

mutual
/-- Number of sync (`def`) function-definition nodes in a statement's
subtree, async definitions' bodies included. -/
def defCount : Stmt → Nat
  | .functionDef _ _ _ body => defCountList body + 1
  | .asyncFunctionDef _ _ _ body => defCountList body
  | .ifStmt _ _ _ body orelse => defCountList body + defCountList orelse
  | .forStmt _ _ _ _ body orelse => defCountList body + defCountList orelse
  | .whileStmt _ _ _ body orelse => defCountList body + defCountList orelse
  | .withStmt _ _ _ body => defCountList body
  | .exprStmt _ _ _ => 0
  | .returnStmt _ _ _ => 0
  | .assign _ _ _ => 0
  | .passStmt _ _ => 0

/-- Sum of `defCount` over a list. -/
def defCountList : List Stmt → Nat
  | [] => 0
  | st :: rest => defCount st + defCountList rest
end

/-! ### Scanner: `ProjectMetrics` and `analyze_directory`
(`codecomplexity/scanner.py`) -/

/-- `ProjectMetrics` from `scanner.py`.  `file_metrics` is a Python dict
keyed by file path; it is modelled as an insertion-ordered association list,
which is exactly the iteration order Python dicts provide. -/
structure ProjectMetrics where
  file_metrics : List (String × List FunctionMetrics)
  total_files : Nat
  total_functions : Nat
deriving Repr, DecidableEq

/-- `ProjectMetrics.__init__`: empty mapping, zero counters. -/
def ProjectMetrics.init : ProjectMetrics :=
  { file_metrics := [], total_files := 0, total_functions := 0 }

/-- Python dict assignment `d[k] = v` on an insertion-ordered association
list: an existing key keeps its position and gets the new value, a fresh key
is appended at the end. -/
def dictAssign (d : List (String × List FunctionMetrics)) (k : String)
    (v : List FunctionMetrics) : List (String × List FunctionMetrics) :=
  if d.any (fun kv => kv.1 == k) then
    d.map (fun kv => if kv.1 == k then (k, v) else kv)
  else d ++ [(k, v)]

/-- `ProjectMetrics.add_file`: assign into the dict and unconditionally
increment both counters. -/
def ProjectMetrics.add_file (p : ProjectMetrics) (filepath : String)
    (metrics : List FunctionMetrics) : ProjectMetrics :=
  { file_metrics := dictAssign p.file_metrics filepath metrics,
    total_files := p.total_files + 1,
    total_functions := p.total_functions + metrics.length }

/-- `ProjectMetrics.get_all_functions`: extend an initially empty list with
each file's metrics, in dict iteration order. -/
def ProjectMetrics.get_all_functions (p : ProjectMetrics) : List FunctionMetrics :=
  p.file_metrics.foldl (fun acc kv => acc ++ kv.2) []

/-- `ProjectMetrics.get_average_complexity`; Python's float result is
modelled as a rational, which is exact for the guarded empty case the claims
are about. -/
def ProjectMetrics.get_average_complexity (p : ProjectMetrics) : ℚ :=
  let all := p.get_all_functions
  if all.isEmpty then 0
  else ((all.map (fun f => (f.cyclomatic_complexity : ℚ))).sum) / (all.length : ℚ)

/-- `ProjectMetrics.get_max_complexity`: `max()` over the complexities when
the list is non-empty, else 0. -/
def ProjectMetrics.get_max_complexity (p : ProjectMetrics) : Nat :=
  let all := p.get_all_functions
  if all.isEmpty then 0
  else (all.map (fun f => f.cyclomatic_complexity)).foldl max 0

/-- One discovered source file, with the outcome of reading and parsing it.
The parser is the external syntax-tree provider, so its outcome is data: a
parse error message, or the file's physical lines together with the parsed
module body. -/
structure SourceFile where
  path : String
  parsed : Except String (List String × List Stmt)

/-- The per-file loop of `scanner.analyze_directory` over the already
discovered files: analyze each file and `add_file` it, except that a file
whose read/parse failed is skipped (`try`/`except ... continue`) without
touching the aggregate. -/
def analyze_directory (files : List SourceFile) : ProjectMetrics :=
  files.foldl
    (fun project file =>
      match file.parsed with
      | .ok (srcLines, moduleBody) =>
          project.add_file file.path (analyze_python_module srcLines moduleBody)
      | .error _ => project)
    ProjectMetrics.init

/-! ### Syntactic side conditions and concrete inputs used by the claims -/

mutual
/-- An expression with no short-circuit boolean operator anywhere in it. -/
def plainExpr : Expr → Bool
  | .boolOp _ => false
  | .binCompare left right => plainExpr left && plainExpr right
  | .call func args => plainExpr func && plainExprs args
  | .name _ => true
  | .const => true

/-- `plainExpr` over a list. -/
def plainExprs : List Expr → Bool
  | [] => true
  | e :: rest => plainExpr e && plainExprs rest
end

/-- A statement that is no control structure, contains no boolean operator
and no function definition: a plain expression statement, `return`,
assignment or `pass`. -/
def plainStmt : Stmt → Bool
  | .exprStmt _ _ value => plainExpr value
  | .returnStmt _ _ value => plainExpr value
  | .assign _ _ value => plainExpr value
  | .passStmt _ _ => true
  | _ => false

/-- `plainStmt` over a list. -/
def plainStmts : List Stmt → Bool
  | [] => true
  | st :: rest => plainStmt st && plainStmts rest

/-- K strictly nested conditionals and nothing else: `if c:` nested K levels
deep around a single `pass`. -/
def nestedIfs : Nat → List Stmt
  | 0 => [Stmt.passStmt 0 0]
  | k + 1 => [Stmt.ifStmt 0 0 (Expr.name "c") (nestedIfs k) []]

/-- The lines-of-code rule in the specification's words: over the physical
lines of the function's span, count exactly those lines whose stripped
content is non-empty and does not start with the line-comment marker. -/
def spec_linesOfCode (sourceLines : List String) (firstLine lastLine : Nat) : Nat :=
  ((sourceLines.drop (firstLine - 1)).take (lastLine - (firstLine - 1))).countP
    (fun line => decide (strippedChars line ≠ [] ∧ (strippedChars line).head? ≠ some '#'))

/-- The five physical lines of the end-to-end example file of the
specification (§8). -/
def exampleSourceLines : List String :=
  ["def f(x):",
   "    if x > 0:",
   "        for i in range(x):",
   "            print(i)",
   "    return x"]

/-- The CPython parse of the example file, with the parser's `lineno` and
`end_lineno` attributes transcribed node by node. -/
def exampleModule : List Stmt :=
  [Stmt.functionDef "f" 1 5
    [Stmt.ifStmt 2 4 (Expr.binCompare (Expr.name "x") Expr.const)
       [Stmt.forStmt 3 4 (Expr.name "i") (Expr.call (Expr.name "range") [Expr.name "x"])
          [Stmt.exprStmt 4 4 (Expr.call (Expr.name "print") [Expr.name "i"])]
          []]
       [],
     Stmt.returnStmt 5 5 (Expr.name "x")]]

/-- A six-line file whose only definitions are two async functions, each
containing control structures. -/
def asyncOnlySourceLines : List String :=
  ["async def g():",
   "    if x:",
   "        pass",
   "async def h():",
   "    while y:",
   "        pass"]

/-- The parse of `asyncOnlySourceLines`. -/
def asyncOnlyModule : List Stmt :=
  [Stmt.asyncFunctionDef "g" 1 3
     [Stmt.ifStmt 2 3 (Expr.name "x") [Stmt.passStmt 3 3] []],
   Stmt.asyncFunctionDef "h" 4 6
     [Stmt.whileStmt 5 6 (Expr.name "y") [Stmt.passStmt 6 6] []]]

/-- A concrete record used by the C9 witness. -/
def sampleRecord : FunctionMetrics :=
  { name := "f", lineno := 1, lines_of_code := 2,
    cyclomatic_complexity := 3, max_nesting_depth := 0 }

/-- Two files with distinct paths, used by the C9 witness. -/
def sampleEntries : List (String × List FunctionMetrics) :=
  [("a.py", [sampleRecord]), ("b.py", [])]

/-! ### Basic lemmas -/

theorem bumpCC_zero (c : Option FunctionMetrics) : bumpCC 0 c = c := by
  cases c <;> simp [bumpCC]

theorem bumpCC_bumpCC (a b : Nat) (c : Option FunctionMetrics) :
    bumpCC a (bumpCC b c) = bumpCC (b + a) c := by
  cases c <;> simp [bumpCC, Nat.add_assoc]

theorem addComplexity_eq (s : VisitorState) (d : Nat) :
    addComplexity s d = { s with current_function := bumpCC d s.current_function } := by
  cases s with
  | mk fs cf nd => cases cf <;> simp [addComplexity, bumpCC]

mutual
theorem visitExpr_spec : ∀ (e : Expr) (s : VisitorState),
    visitExpr s e = { s with current_function := bumpCC (exprComplexity e) s.current_function }
  | .boolOp values, s => by
      rw [visitExpr, visitExprs_spec, addComplexity_eq]
      simp [exprComplexity, bumpCC_bumpCC]
  | .binCompare left right, s => by
      rw [visitExpr, visitExpr_spec right, visitExpr_spec left]
      simp [exprComplexity, bumpCC_bumpCC]
  | .call func args, s => by
      rw [visitExpr, visitExprs_spec, visitExpr_spec func]
      simp [exprComplexity, bumpCC_bumpCC]
  | .name _, s => by
      rw [visitExpr]
      simp [exprComplexity, bumpCC_zero]
  | .const, s => by
      rw [visitExpr]
      simp [exprComplexity, bumpCC_zero]

theorem visitExprs_spec : ∀ (l : List Expr) (s : VisitorState),
    visitExprs s l = { s with current_function := bumpCC (exprsComplexity l) s.current_function }
  | [], s => by
      rw [visitExprs]
      simp [exprsComplexity, bumpCC_zero]
  | e :: rest, s => by
      rw [visitExprs, visitExpr_spec e, visitExprs_spec rest]
      simp [exprsComplexity, bumpCC_bumpCC]
end

mutual
theorem visitStmt_spec : ∀ (st : Stmt) (src : List String) (s : VisitorState),
    visitStmt src s st =
      { functions := s.functions ++ emitted src st,
        current_function := bumpCC (stmtComplexity st) s.current_function,
        nesting_depth := s.nesting_depth }
  | .functionDef fname lineno end_lineno body, src, s => by
      have hb := visitStmts_spec body src
      simp only [visitStmt, hb, emitted, stmtComplexity, bumpCC, Option.getD_some,
        List.append_assoc]
      cases s.current_function <;> simp
  | .asyncFunctionDef fname lineno end_lineno body, src, s => by
      have hb := visitStmts_spec body src
      simp only [visitStmt, hb, emitted, stmtComplexity]
  | .ifStmt lineno end_lineno test body orelse, src, s => by
      have hb := visitStmts_spec body src
      have ho := visitStmts_spec orelse src
      simp only [visitStmt, addComplexity_eq, visitExpr_spec, hb, ho, emitted,
        stmtComplexity, bumpCC_bumpCC, List.append_assoc, Nat.add_sub_cancel]
  | .forStmt lineno end_lineno target iter body orelse, src, s => by
      have hb := visitStmts_spec body src
      have ho := visitStmts_spec orelse src
      simp only [visitStmt, addComplexity_eq, visitExpr_spec, hb, ho, emitted,
        stmtComplexity, bumpCC_bumpCC, List.append_assoc, Nat.add_sub_cancel]
  | .whileStmt lineno end_lineno test body orelse, src, s => by
      have hb := visitStmts_spec body src
      have ho := visitStmts_spec orelse src
      simp only [visitStmt, addComplexity_eq, visitExpr_spec, hb, ho, emitted,
        stmtComplexity, bumpCC_bumpCC, List.append_assoc, Nat.add_sub_cancel]
  | .withStmt lineno end_lineno items body, src, s => by
      have hb := visitStmts_spec body src
      simp only [visitStmt, visitExprs_spec, hb, emitted, stmtComplexity,
        bumpCC_bumpCC, List.append_assoc, Nat.add_sub_cancel]
  | .exprStmt lineno end_lineno value, src, s => by
      simp only [visitStmt, visitExpr_spec, emitted, stmtComplexity, List.append_nil]
  | .returnStmt lineno end_lineno value, src, s => by
      simp only [visitStmt, visitExpr_spec, emitted, stmtComplexity, List.append_nil]
  | .assign lineno end_lineno value, src, s => by
      simp only [visitStmt, visitExpr_spec, emitted, stmtComplexity, List.append_nil]
  | .passStmt lineno end_lineno, src, s => by
      simp only [visitStmt, emitted, stmtComplexity, bumpCC_zero, List.append_nil]

theorem visitStmts_spec : ∀ (l : List Stmt) (src : List String) (s : VisitorState),
    visitStmts src s l =
      { functions := s.functions ++ emittedList src l,
        current_function := bumpCC (stmtsComplexity l) s.current_function,
        nesting_depth := s.nesting_depth }
  | [], src, s => by
      simp only [visitStmts, emittedList, stmtsComplexity, bumpCC_zero, List.append_nil]
  | st :: rest, src, s => by
      have hs := visitStmt_spec st src
      have hr := visitStmts_spec rest src
      simp only [visitStmts, hs, hr, emittedList, stmtsComplexity, bumpCC_bumpCC,
        List.append_assoc]
end

/-- The whole analysis of one parsed module is the emission list: the
initial state has an empty `functions` list, no current function and depth
0. -/
theorem analyze_python_module_eq (src : List String) (body : List Stmt) :
    analyze_python_module src body = emittedList src body := by
  rw [analyze_python_module, visitStmts_spec]
  rfl

theorem stmtsComplexity_append (l1 l2 : List Stmt) :
    stmtsComplexity (l1 ++ l2) = stmtsComplexity l1 + stmtsComplexity l2 := by
  induction l1 with
  | nil => simp [stmtsComplexity]
  | cons st rest ih => simp [stmtsComplexity, ih, Nat.add_assoc]

theorem emittedList_append (src : List String) (l1 l2 : List Stmt) :
    emittedList src (l1 ++ l2) = emittedList src l1 ++ emittedList src l2 := by
  induction l1 with
  | nil => simp [emittedList]
  | cons st rest ih => simp [emittedList, ih]

mutual
theorem emitted_length : ∀ (st : Stmt) (src : List String),
    (emitted src st).length = defCount st
  | .functionDef fname lineno end_lineno body, src => by
      have hb := emittedList_length body src
      simp [emitted, defCount, hb]
  | .asyncFunctionDef fname lineno end_lineno body, src => by
      have hb := emittedList_length body src
      simp [emitted, defCount, hb]
  | .ifStmt lineno end_lineno test body orelse, src => by
      have hb := emittedList_length body src
      have ho := emittedList_length orelse src
      simp [emitted, defCount, hb, ho]
  | .forStmt lineno end_lineno target iter body orelse, src => by
      have hb := emittedList_length body src
      have ho := emittedList_length orelse src
      simp [emitted, defCount, hb, ho]
  | .whileStmt lineno end_lineno test body orelse, src => by
      have hb := emittedList_length body src
      have ho := emittedList_length orelse src
      simp [emitted, defCount, hb, ho]
  | .withStmt lineno end_lineno items body, src => by
      have hb := emittedList_length body src
      simp [emitted, defCount, hb]
  | .exprStmt lineno end_lineno value, src => by simp [emitted, defCount]
  | .returnStmt lineno end_lineno value, src => by simp [emitted, defCount]
  | .assign lineno end_lineno value, src => by simp [emitted, defCount]
  | .passStmt lineno end_lineno, src => by simp [emitted, defCount]

theorem emittedList_length : ∀ (l : List Stmt) (src : List String),
    (emittedList src l).length = defCountList l
  | [], src => by simp [emittedList, defCountList]
  | st :: rest, src => by
      have hs := emitted_length st src
      have hr := emittedList_length rest src
      simp [emittedList, defCountList, hs, hr]
end

mutual
theorem plainExpr_complexity : ∀ e : Expr, plainExpr e = true → exprComplexity e = 0
  | .boolOp values, h => by simp [plainExpr] at h
  | .binCompare left right, h => by
      simp only [plainExpr, Bool.and_eq_true] at h
      have hl := plainExpr_complexity left h.1
      have hr := plainExpr_complexity right h.2
      simp [exprComplexity, hl, hr]
  | .call func args, h => by
      simp only [plainExpr, Bool.and_eq_true] at h
      have hf := plainExpr_complexity func h.1
      have ha := plainExprs_complexity args h.2
      simp [exprComplexity, hf, ha]
  | .name _, h => by simp [exprComplexity]
  | .const, h => by simp [exprComplexity]

theorem plainExprs_complexity : ∀ l : List Expr, plainExprs l = true → exprsComplexity l = 0
  | [], h => by simp [exprsComplexity]
  | e :: rest, h => by
      simp only [plainExprs, Bool.and_eq_true] at h
      have he := plainExpr_complexity e h.1
      have hr := plainExprs_complexity rest h.2
      simp [exprsComplexity, he, hr]
end

theorem plainStmt_complexity (st : Stmt) (h : plainStmt st = true) :
    stmtComplexity st = 0 := by
  cases st with
  | exprStmt lineno end_lineno value =>
      simp only [plainStmt] at h
      simp [stmtComplexity, plainExpr_complexity value h]
  | returnStmt lineno end_lineno value =>
      simp only [plainStmt] at h
      simp [stmtComplexity, plainExpr_complexity value h]
  | assign lineno end_lineno value =>
      simp only [plainStmt] at h
      simp [stmtComplexity, plainExpr_complexity value h]
  | passStmt lineno end_lineno => simp [stmtComplexity]
  | functionDef fname lineno end_lineno body => simp [plainStmt] at h
  | asyncFunctionDef fname lineno end_lineno body => simp [plainStmt] at h
  | ifStmt lineno end_lineno test body orelse => simp [plainStmt] at h
  | forStmt lineno end_lineno target iter body orelse => simp [plainStmt] at h
  | whileStmt lineno end_lineno test body orelse => simp [plainStmt] at h
  | withStmt lineno end_lineno items body => simp [plainStmt] at h

theorem plainStmt_emitted (st : Stmt) (src : List String) (h : plainStmt st = true) :
    emitted src st = [] := by
  cases st with
  | exprStmt lineno end_lineno value => simp [emitted]
  | returnStmt lineno end_lineno value => simp [emitted]
  | assign lineno end_lineno value => simp [emitted]
  | passStmt lineno end_lineno => simp [emitted]
  | functionDef fname lineno end_lineno body => simp [plainStmt] at h
  | asyncFunctionDef fname lineno end_lineno body => simp [plainStmt] at h
  | ifStmt lineno end_lineno test body orelse => simp [plainStmt] at h
  | forStmt lineno end_lineno target iter body orelse => simp [plainStmt] at h
  | whileStmt lineno end_lineno test body orelse => simp [plainStmt] at h
  | withStmt lineno end_lineno items body => simp [plainStmt] at h

theorem plainStmts_complexity (l : List Stmt) (h : plainStmts l = true) :
    stmtsComplexity l = 0 := by
  induction l with
  | nil => simp [stmtsComplexity]
  | cons st rest ih =>
      simp only [plainStmts, Bool.and_eq_true] at h
      simp [stmtsComplexity, plainStmt_complexity st h.1, ih h.2]

theorem plainStmts_emitted (l : List Stmt) (src : List String) (h : plainStmts l = true) :
    emittedList src l = [] := by
  induction l with
  | nil => simp [emittedList]
  | cons st rest ih =>
      simp only [plainStmts, Bool.and_eq_true] at h
      simp [emittedList, plainStmt_emitted st src h.1, ih h.2]

theorem nestedIfs_complexity (k : Nat) : stmtsComplexity (nestedIfs k) = k := by
  induction k with
  | zero => simp [nestedIfs, stmtsComplexity, stmtComplexity]
  | succ n ih =>
      simp [nestedIfs, stmtsComplexity, stmtComplexity, exprComplexity, ih]
      omega

theorem nestedIfs_emitted (k : Nat) (src : List String) :
    emittedList src (nestedIfs k) = [] := by
  induction k with
  | zero => simp [nestedIfs, emittedList, emitted]
  | succ n ih => simp [nestedIfs, emittedList, emitted, ih]

theorem isCodeLine_eq_spec (line : String) :
    isCodeLine line =
      decide (strippedChars line ≠ [] ∧ (strippedChars line).head? ≠ some '#') := by
  simp [isCodeLine]

/-- `_calculate_loc` computes exactly the specification's counting rule over
the function's span. -/
theorem calculate_loc_eq_spec (src : List String) (ln el : Nat) (body : List Stmt) :
    calculate_loc src ln el body =
      spec_linesOfCode src ln (if body.isEmpty then ln else max el (walkEndList body)) := by
  simp only [calculate_loc, spec_linesOfCode]
  exact List.countP_congr (fun line _ => by rw [isCodeLine_eq_spec])

/-! ### Aggregate lemmas for `ProjectMetrics` -/

theorem foldl_extend_of_nil_vals :
    ∀ (d : List (String × List FunctionMetrics)) (acc : List FunctionMetrics),
      (∀ kv ∈ d, kv.2 = []) → d.foldl (fun a kv => a ++ kv.2) acc = acc
  | [], acc, h => rfl
  | kv :: rest, acc, h => by
      have h1 : kv.2 = [] := h kv (by simp)
      have h2 : ∀ x ∈ rest, x.2 = ([] : List FunctionMetrics) := fun x hx => h x (by simp [hx])
      simp only [List.foldl_cons, h1, List.append_nil]
      exact foldl_extend_of_nil_vals rest acc h2

theorem dictAssign_nil_vals (d : List (String × List FunctionMetrics)) (k : String)
    (h : ∀ kv ∈ d, kv.2 = []) :
    ∀ kv ∈ dictAssign d k [], kv.2 = ([] : List FunctionMetrics) := by
  intro kv hkv
  rw [dictAssign] at hkv
  split at hkv
  · obtain ⟨a, ha, hae⟩ := List.mem_map.mp hkv
    by_cases hc : a.1 == k
    · rw [if_pos hc] at hae
      rw [← hae]
    · rw [if_neg hc] at hae
      rw [← hae]
      exact h a ha
  · rcases List.mem_append.mp hkv with h1 | h2
    · exact h kv h1
    · have hkv2 : kv = (k, []) := by simpa using h2
      rw [hkv2]

theorem addfile_fold_nil_vals :
    ∀ (paths : List String) (p : ProjectMetrics),
      (∀ kv ∈ p.file_metrics, kv.2 = []) →
      ∀ kv ∈ (paths.foldl (fun q path => q.add_file path []) p).file_metrics,
        kv.2 = ([] : List FunctionMetrics)
  | [], p, h => h
  | path :: rest, p, h => by
      simp only [List.foldl_cons]
      exact addfile_fold_nil_vals rest (p.add_file path [])
        (dictAssign_nil_vals p.file_metrics path h)

theorem add_file_fresh (p : ProjectMetrics) (k : String) (ms : List FunctionMetrics)
    (h : ∀ kv ∈ p.file_metrics, kv.1 ≠ k) :
    (p.add_file k ms).file_metrics = p.file_metrics ++ [(k, ms)] := by
  have hany : p.file_metrics.any (fun kv => kv.1 == k) = false := by
    rw [List.any_eq_false]
    intro kv hkv
    simpa using h kv hkv
  simp [ProjectMetrics.add_file, dictAssign, hany]

theorem get_all_functions_concat (p : ProjectMetrics) (k : String)
    (ms : List FunctionMetrics) (h : ∀ kv ∈ p.file_metrics, kv.1 ≠ k) :
    (p.add_file k ms).get_all_functions = p.get_all_functions ++ ms := by
  rw [ProjectMetrics.get_all_functions, ProjectMetrics.get_all_functions,
    add_file_fresh p k ms h, List.foldl_append]
  rfl

theorem c9_fold_invariant :
    ∀ (entries : List (String × List FunctionMetrics)) (p : ProjectMetrics),
      (entries.map Prod.fst).Pairwise (fun a b => a ≠ b) →
      (∀ e ∈ entries, ∀ kv ∈ p.file_metrics, kv.1 ≠ e.1) →
      p.total_files = p.file_metrics.length →
      p.total_functions = p.get_all_functions.length →
      (entries.foldl (fun q e => q.add_file e.1 e.2) p).total_files =
          (entries.foldl (fun q e => q.add_file e.1 e.2) p).file_metrics.length ∧
        (entries.foldl (fun q e => q.add_file e.1 e.2) p).total_functions =
          (entries.foldl (fun q e => q.add_file e.1 e.2) p).get_all_functions.length
  | [], p, hp, hfresh, hf, hn => ⟨hf, hn⟩
  | (k, ms) :: rest, p, hp, hfresh, hf, hn => by
      have hk : ∀ kv ∈ p.file_metrics, kv.1 ≠ k := fun kv hkv =>
        hfresh (k, ms) (by simp) kv hkv
      have hfm := add_file_fresh p k ms hk
      have hall := get_all_functions_concat p k ms hk
      rw [List.map_cons, List.pairwise_cons] at hp
      simp only [List.foldl_cons]
      apply c9_fold_invariant rest (p.add_file k ms) hp.2
      · intro e he kv hkv
        rw [hfm] at hkv
        rcases List.mem_append.mp hkv with h1 | h2
        · exact hfresh e (by simp [he]) kv h1
        · have hkv2 : kv = (k, ms) := by simpa using h2
          rw [hkv2]

          exact hp.1 e.1 (List.mem_map.mpr ⟨e, he, rfl⟩)
      · show p.total_files + 1 = (p.add_file k ms).file_metrics.length
        rw [hfm, List.length_append, hf]
        rfl
      · show p.total_functions + ms.length = (p.add_file k ms).get_all_functions.length
        rw [hall, List.length_append, hn]

/-! ### The claims -/

/-- C1: the claim states that a function containing K strictly nested
conditionals and nothing else has `cyclomatic_complexity = 1 + K` and
`max_nesting_depth = K`.  The complexity part holds, but the code records
`max_nesting_depth = 0` for every K: each handler's depth increment is
undone by its decrement before `visit_FunctionDef` reads the counter back,
and no running maximum is ever kept, contradicting the code's own comments
and docstrings.  This theorem evaluates the code's actual behaviour. -/
theorem C1_nested_conditionals_behavior (K : Nat) (src : List String)
    (fname : String) (ln el : Nat) :
    analyze_python_module src [Stmt.functionDef fname ln el (nestedIfs K)] =
      [{ name := fname, lineno := ln,
         lines_of_code := calculate_loc src ln el (nestedIfs K),
         cyclomatic_complexity := 1 + K, max_nesting_depth := 0 }] := by
  rw [analyze_python_module_eq]
  simp [emittedList, emitted, nestedIfs_emitted, nestedIfs_complexity]

/-- C2 (counterexample): on the five-line example file the analysis does
not produce the claimed record — the claim's `max_nesting_depth = 2` and
`lines_of_code = 4` both fail on the code. -/
theorem C2_example_counterexample :
    (analyze_python_module exampleSourceLines exampleModule).map
        (fun m => (m.name, m.cyclomatic_complexity, m.max_nesting_depth, m.lines_of_code)) ≠
      [("f", 3, 2, 4)] := by
  decide

/-- C2 (amended): the example file yields exactly one record, with
`name = "f"`, `cyclomatic_complexity = 3`, `lines_of_code = 5` (the span is
lines 1–5 and every line is a code line) and `max_nesting_depth = 0` (the
code never tracks a running maximum). -/
theorem C2_example_behavior :
    analyze_python_module exampleSourceLines exampleModule =
      [{ name := "f", lineno := 1, lines_of_code := 5,
         cyclomatic_complexity := 3, max_nesting_depth := 0 }] := by
  decide

/-- C3: an inner function definition is scoped independently: replacing the
inner function's body by any other body changes neither the outer record's
cyclomatic complexity nor its max nesting depth, and the inner function gets
its own record, distinct from the outer record (it appears before the last
position, which holds the outer record). -/
theorem C3_nested_function_scoped (src : List String) (outerName innerName : String)
    (ln el gln gel : Nat) (pre post ibody1 ibody2 : List Stmt) :
    ∃ r1 r2 : FunctionMetrics,
      (analyze_python_module src
          [Stmt.functionDef outerName ln el
            (pre ++ [Stmt.functionDef innerName gln gel ibody1] ++ post)]).getLast? = some r1 ∧
      (analyze_python_module src
          [Stmt.functionDef outerName ln el
            (pre ++ [Stmt.functionDef innerName gln gel ibody2] ++ post)]).getLast? = some r2 ∧
      r1.name = outerName ∧ r2.name = outerName ∧
      r1.cyclomatic_complexity = r2.cyclomatic_complexity ∧
      r1.max_nesting_depth = r2.max_nesting_depth ∧
      ∃ g ∈ (analyze_python_module src
          [Stmt.functionDef outerName ln el
            (pre ++ [Stmt.functionDef innerName gln gel ibody1] ++ post)]).dropLast,
        g.name = innerName := by
  simp only [analyze_python_module_eq, emittedList, emitted, List.append_nil]
  refine ⟨_, _, List.getLast?_concat _, List.getLast?_concat _, rfl, rfl, ?_, rfl, ?_⟩
  · simp [stmtsComplexity_append, stmtsComplexity, stmtComplexity]
  · rw [List.dropLast_concat]
    refine ⟨{ name := innerName, lineno := gln,
              lines_of_code := calculate_loc src gln gel ibody1,
              cyclomatic_complexity := 1 + stmtsComplexity ibody1,
              max_nesting_depth := 0 }, ?_, rfl⟩
    simp [emittedList_append, emittedList, emitted]

/-- C4: a function whose body is exactly `if a and b and c: ...`, with `a`,
`b`, `c` and the `...` suite free of boolean operators, control structures
and definitions, gets cyclomatic complexity 4: 1 base + 1 for the `if` + 2
for the three-operand chain, additively with no de-duplication. -/
theorem C4_boolop_chain (src : List String) (fname : String) (ln el iln iel : Nat)
    (a b c : Expr) (suite : List Stmt)
    (ha : plainExpr a = true) (hb : plainExpr b = true) (hc : plainExpr c = true)
    (hsuite : plainStmts suite = true) :
    (analyze_python_module src
        [Stmt.functionDef fname ln el
          [Stmt.ifStmt iln iel (Expr.boolOp [a, b, c]) suite []]]).map
      (fun m => m.cyclomatic_complexity) = [4] := by
  rw [analyze_python_module_eq]
  simp [emittedList, emitted, stmtsComplexity, stmtComplexity, exprComplexity,
    exprsComplexity, plainExpr_complexity a ha, plainExpr_complexity b hb,
    plainExpr_complexity c hc, plainStmts_complexity suite hsuite,
    plainStmts_emitted suite src hsuite]

/-- C4 witness: the theorem applied to `if a and b and c: pass`. -/
theorem C4_boolop_chain_witness :
    plainExpr (Expr.name "a") = true ∧ plainStmts [Stmt.passStmt 2 2] = true ∧
    (analyze_python_module []
        [Stmt.functionDef "f" 1 2
          [Stmt.ifStmt 2 2 (Expr.boolOp [Expr.name "a", Expr.name "b", Expr.name "c"])
            [Stmt.passStmt 2 2] []]]).map
      (fun m => m.cyclomatic_complexity) = [4] :=
  ⟨by decide, by decide,
    C4_boolop_chain [] "f" 1 2 2 2 (Expr.name "a") (Expr.name "b") (Expr.name "c")
      [Stmt.passStmt 2 2] (by decide) (by decide) (by decide) (by decide)⟩

/-- C5: one record per sync function definition, and a nested definition's
record is appended before the record of the outer function containing it:
the output decomposes as `l1 ++ innerRecord :: (l2 ++ [outerRecord])`. -/
theorem C5_emission_order (src : List String) (outerName innerName : String)
    (ln el gln gel : Nat) (pre post ibody : List Stmt) :
    (∀ moduleBody : List Stmt,
        (analyze_python_module src moduleBody).length = defCountList moduleBody) ∧
    ∃ l1 l2 gRec oRec,
      analyze_python_module src
          [Stmt.functionDef outerName ln el
            (pre ++ [Stmt.functionDef innerName gln gel ibody] ++ post)] =
        l1 ++ gRec :: (l2 ++ [oRec]) ∧
      gRec.name = innerName ∧ oRec.name = outerName := by
  constructor
  · intro moduleBody
    rw [analyze_python_module_eq]
    exact emittedList_length moduleBody src
  · refine ⟨emittedList src pre ++ emittedList src ibody, emittedList src post,
      { name := innerName, lineno := gln,
        lines_of_code := calculate_loc src gln gel ibody,
        cyclomatic_complexity := 1 + stmtsComplexity ibody, max_nesting_depth := 0 },
      { name := outerName, lineno := ln,
        lines_of_code := calculate_loc src ln el
          (pre ++ [Stmt.functionDef innerName gln gel ibody] ++ post),
        cyclomatic_complexity :=
          1 + stmtsComplexity (pre ++ [Stmt.functionDef innerName gln gel ibody] ++ post),
        max_nesting_depth := 0 }, ?_, rfl, rfl⟩
    rw [analyze_python_module_eq]
    simp [emittedList, emitted, emittedList_append]

/-- C6: the `lines_of_code` of an emitted record counts exactly the physical
lines of the function's span whose stripped content is non-empty and does
not start with `#` — blank and pure-comment lines excluded, every other
line, trailing comments included, counted once (`spec_linesOfCode` is the
rule transcribed from the specification). -/
theorem C6_loc_rule (src : List String) (fname : String) (ln el : Nat)
    (body : List Stmt) :
    ∃ m, (analyze_python_module src [Stmt.functionDef fname ln el body]).getLast? = some m ∧
      m.lines_of_code =
        spec_linesOfCode src ln (if body.isEmpty then ln else max el (walkEndList body)) := by
  simp only [analyze_python_module_eq, emittedList, emitted, List.append_nil]
  exact ⟨_, List.getLast?_concat _, calculate_loc_eq_spec src ln el body⟩

/-- C7: during a directory scan an unparseable file is skipped without
aborting: scanning two files of which exactly one parses (in either order)
completes and counts `total_files = 1`. -/
theorem C7_unparseable_skipped (p1 p2 e1 e2 : String) (src : List String)
    (moduleBody : List Stmt) :
    (analyze_directory
        [⟨p1, Except.ok (src, moduleBody)⟩, ⟨p2, Except.error e2⟩]).total_files = 1 ∧
    (analyze_directory
        [⟨p1, Except.error e1⟩, ⟨p2, Except.ok (src, moduleBody)⟩]).total_files = 1 := by
  constructor <;> rfl

/-- C8: after adding no files, or only files with empty metrics lists,
`get_average_complexity` returns 0 and `get_max_complexity` returns 0; both
are total functions, so neither can raise. -/
theorem C8_empty_aggregate (paths : List String) :
    (paths.foldl (fun q path => q.add_file path []) ProjectMetrics.init).get_average_complexity
        = 0 ∧
    (paths.foldl (fun q path => q.add_file path []) ProjectMetrics.init).get_max_complexity
        = 0 := by
  have hall : (paths.foldl (fun q path => q.add_file path [])
      ProjectMetrics.init).get_all_functions = [] :=
    foldl_extend_of_nil_vals _ []
      (addfile_fold_nil_vals paths ProjectMetrics.init (by simp [ProjectMetrics.init]))
  constructor
  · rw [ProjectMetrics.get_average_complexity]
    simp [hall]
  · rw [ProjectMetrics.get_max_complexity]
    simp [hall]

/-- C9: after a sequence of `add_file` calls with pairwise distinct paths,
`total_files` equals the number of dict entries and `total_functions` equals
the length of `get_all_functions` (the distinctness is required because a
repeated path replaces the dict entry while still incrementing both
counters). -/
theorem C9_counters_match_contents (entries : List (String × List FunctionMetrics))
    (hdist : (entries.map Prod.fst).Pairwise (fun a b => a ≠ b)) :
    (entries.foldl (fun q e => q.add_file e.1 e.2) ProjectMetrics.init).total_files =
        (entries.foldl (fun q e => q.add_file e.1 e.2) ProjectMetrics.init).file_metrics.length ∧
      (entries.foldl (fun q e => q.add_file e.1 e.2) ProjectMetrics.init).total_functions =
        (entries.foldl (fun q e =>
          q.add_file e.1 e.2) ProjectMetrics.init).get_all_functions.length :=
  c9_fold_invariant entries ProjectMetrics.init hdist
    (by intro e he kv hkv; simp [ProjectMetrics.init] at hkv) rfl rfl

/-- C9 witness: two distinct paths, one with one function record. -/
theorem C9_counters_match_contents_witness :
    ((sampleEntries.map Prod.fst).Pairwise (fun a b => a ≠ b)) ∧
    (sampleEntries.foldl (fun q e => q.add_file e.1 e.2) ProjectMetrics.init).total_files =
      (sampleEntries.foldl
        (fun q e => q.add_file e.1 e.2) ProjectMetrics.init).file_metrics.length :=
  ⟨by decide, (C9_counters_match_contents sampleEntries (by decide)).1⟩

/-- C10: `async def` gets no record: the visitor has no handler for async
definitions, so they are transparently descended into without allocating a
record; a module with no sync `def` anywhere (in particular one whose only
definitions are async functions) yields an empty result list. -/
theorem C10_async_no_records (src : List String) (moduleBody : List Stmt)
    (aname : String) (ln el : Nat) (abody : List Stmt) (s : VisitorState)
    (h : defCountList moduleBody = 0) :
    visitStmt src s (Stmt.asyncFunctionDef aname ln el abody) = visitStmts src s abody ∧
    analyze_python_module src moduleBody = [] := by
  constructor
  · rw [visitStmt]
  · rw [analyze_python_module_eq]
    have hlen := emittedList_length moduleBody src
    rw [h] at hlen
    exact List.length_eq_zero.mp hlen

/-- C10 witness: a file whose only definitions are two async functions with
control structures inside yields the empty list. -/
theorem C10_async_no_records_witness :
    defCountList asyncOnlyModule = 0 ∧
    analyze_python_module asyncOnlySourceLines asyncOnlyModule = [] :=
  ⟨by decide,
    (C10_async_no_records asyncOnlySourceLines asyncOnlyModule "g" 1 3 [] initialState
      (by decide)).2⟩

end CodeComplexity
